import Mathlib

/-!
Verification development for the FinAgent repository (chatbot.py, tool.py,
main.py, streamlit.py).  The Lean definitions below are a shallow embedding
of the source: pure computations become Lean functions, MongoDB writes become
explicit state passing on Lean lists, Python exceptions become Except values,
and the behavior of the langgraph runtime objects that chatbot.py constructs
and configures (ToolNode, tools_condition, add_messages, MongoDBSaver, the
stream call with stream_mode equal to "messages", and the default
recursion limit) is embedded as configured at the construction sites cited
in the claims.
-/

namespace FinAgent

/-! ## Basic values and tool-call argument records

Tool arguments travel as JSON-like records (Python dicts produced by the
model).  A record is an association list from field name to value. -/

/-- Embeds the JSON-ish values that appear in tool argument records:
strings, numbers (Python floats, embedded as rationals) and null. -/
inductive Value where
  | str (s : String)
  | num (q : ℚ)
  | null
deriving DecidableEq, Repr

/-- An argument record: field name to value, as the model produces it in a
tool call and as ToolNode hands it to the tool. -/
abbrev Args := List (String × Value)

/-- Reads a string-typed field of an argument record. -/
def strField (args : Args) (k : String) : Option String :=
  match List.lookup k args with
  | some (Value.str s) => some s
  | _ => none

/-- Reads a number-typed field of an argument record. -/
def numField (args : Args) (k : String) : Option ℚ :=
  match List.lookup k args with
  | some (Value.num q) => some q
  | _ => none

/-! ## tool.py: data model of the MongoDB collections -/

/-- Embeds one document of the expenses collection as written by
add_expense_tool (tool.py lines 80-87): user_id, amount, normalized
category, optional description.  Timestamps are omitted: no claim depends
on them. -/
structure Expense where
  user_id : String
  amount : ℚ
  category : String
  description : Option String
deriving DecidableEq, Repr

/-- Embeds one document of the goals collection as written by add_goal_tool
(tool.py lines 298-303). -/
structure Goal where
  user_id : String
  goal_text : String
  advice_given : Bool
deriving DecidableEq, Repr

/-- Embeds the structured data field of the uniform result envelope.  The
concrete dict payloads of the different tools are separate constructors. -/
inductive ToolData where
  | expense (expense_id : String) (amount : ℚ) (category : String)
      (description : Option String)
  | goal (goal_id : String) (goal_text : String)
  | query (count : Nat) (total_amount : ℚ)
  | summary (total_spent : ℚ) (transaction_count : Nat) (feedback : String)
  | note (s : String)
deriving DecidableEq, Repr

/-- Embeds the uniform result envelope of tool.py: a dict with keys status,
data and message. -/
structure Envelope where
  status : String
  data : Option ToolData
  message : String
deriving DecidableEq, Repr

/-- Embeds the outcome of a pymongo insert_one call as seen by the caller:
either it returns a result object (with an acknowledged flag and an inserted
id) or it raises an exception with a message. -/
inductive InsertOutcome where
  | ok (acknowledged : Bool) (inserted_id : String)
  | raises (e : String)
deriving DecidableEq, Repr

/-- Embeds the outcome of a pymongo find call: rows, or an exception. -/
inductive FindOutcome where
  | ok (rows : List Expense)
  | raises (e : String)
deriving DecidableEq, Repr

/-- Embeds the outcome of an outbound HTTP call (requests.get in
get_stock_price, serper.run in search_with_serper): a response body, or an
exception with a message. -/
inductive HttpOutcome where
  | ok (body : String)
  | raises (e : String)
deriving DecidableEq, Repr

/-! ## tool.py: the tool functions

Each tool body is translated from the source.  The nondeterministic outcome
of the external service call is an explicit parameter; the expenses or goals
collection is threaded as explicit state where the tool writes to it. -/

/-- Embeds add_expense_tool (tool.py lines 65-115).  The whole body is
inside try/except, so the Lean function is total into an envelope.  Returns
the envelope together with the expenses collection after the call:
the amount check happens before the insert, so the error path for
non-positive amounts leaves the collection unchanged. -/
def add_expense_tool (user_id : String) (amount : ℚ) (category : String)
    (description : Option String) (dbo : InsertOutcome)
    (expenses : List Expense) : Envelope × List Expense :=
  if amount ≤ 0 then
    (⟨"error", none,
      "Failed to add expense: Amount must be positive. Received " ++
        toString amount ++ "."⟩, expenses)
  else
    let doc : Expense :=
      ⟨user_id, amount, (category.toLower).trim, description⟩
    match dbo with
    | InsertOutcome.raises e =>
        -- insert_one raised: the except block returns the error envelope
        (⟨"error", none, "Failed to add expense: " ++ e⟩, expenses)
    | InsertOutcome.ok ack oid =>
        let expenses' := expenses ++ [doc]
        if ack then
          (⟨"success",
            some (ToolData.expense oid amount category description),
            "Successfully added expense of " ++ toString amount ++
              " for " ++ category ++ "."⟩, expenses')
        else
          (⟨"error", none,
            "Failed to add expense: Database write not acknowledged."⟩,
           expenses')

/-- Embeds the MongoDB find filter of query_expenses_tool (tool.py line
127-129): documents matching the user id and, when given, the normalized
category.  The date-window filter is not embedded: rows passed in are the
rows inside the window. -/
def mongoFindExpenses (coll : List Expense) (user_id : String)
    (category : Option String) : List Expense :=
  coll.filter fun e =>
    e.user_id == user_id &&
      match category with
      | none => true
      | some c => e.category == (c.toLower).trim

/-- Embeds query_expenses_tool (tool.py lines 117-162).  The body is inside
try/except, so the result is always an envelope. -/
def query_expenses_tool (user_id : String) (category : Option String)
    (period_days : ℤ) (dbo : FindOutcome) : Envelope :=
  match dbo with
  | FindOutcome.raises e =>
      ⟨"error", none, "Failed to query expenses: " ++ e⟩
  | FindOutcome.ok rows =>
      let _ := user_id
      let _ := category
      let total : ℚ := (rows.map Expense.amount).sum
      ⟨"success", some (ToolData.query rows.length total),
        "Found " ++ toString rows.length ++ " expenses totaling " ++
          toString total ++ " for the last " ++ toString period_days ++
          " days."⟩

/-- Embeds building the by_category dict of expense_summary_tool (tool.py
lines 188-191): a Python dict keeps insertion order and accumulates
amounts per lowercased category. -/
def bumpCategory : List (String × ℚ) → String → ℚ → List (String × ℚ)
  | [], k, a => [(k, a)]
  | (k, x) :: t, k0, a =>
      if k = k0 then (k, x + a) :: t else (k, x) :: bumpCategory t k0 a

/-- Embeds the budget guideline table of generate_spending_feedback
(tool.py lines 234-239); absent categories default to 25. -/
def budgetGuideline (category : String) : ℚ :=
  match List.lookup category
      [("food", (30 : ℚ)), ("transport", 15), ("entertainment", 10),
       ("shopping", 20)] with
  | some g => g
  | none => 25

/-- Embeds the per-category feedback branch of generate_spending_feedback
(tool.py lines 246-263).  Decimal formatting of percentages is rendered
with toString. -/
def categoryFeedback (category : String) (percentage : ℚ) : Option String :=
  let recommended := budgetGuideline category
  if recommended + 10 < percentage then
    some ("You are spending " ++ toString percentage ++ " percent on " ++
      category ++ ", which is quite high. Consider reducing " ++ category ++
      " expenses to stay within a healthy budget.")
  else if recommended < percentage then
    some ("Your " ++ category ++ " spending is " ++ toString percentage ++
      " percent, slightly above the recommended " ++ toString recommended ++
      " percent. Keep an eye on this category.")
  else if percentage < recommended / 2 then
    some ("Great job keeping " ++ category ++ " expenses low at " ++
      toString percentage ++ " percent. You are well under the " ++
      toString recommended ++ " percent guideline.")
  else
    none

/-- Embeds the Python max over dict items with key lambda x: x[1] (tool.py
line 266): the first item with the maximal amount. -/
def maxByAmount : List (String × ℚ) → Option (String × ℚ)
  | [] => none
  | p :: t =>
      match maxByAmount t with
      | none => some p
      | some q => some (if p.2 < q.2 then q else p)

/-- Embeds generate_spending_feedback (tool.py lines 227-289): overall
zero-spend shortcut, per-category branches, largest-category warning,
total-spend thresholds, positive fallback, and the compiled base message. -/
def generate_spending_feedback (total_spent : ℚ)
    (by_category : List (String × ℚ))
    (category_percentages : List (String × ℚ)) (period_days : ℤ) : String :=
  if total_spent = 0 then
    "Amazing! You have not spent anything this period. Your savings must be growing!"
  else
    let perCat := category_percentages.filterMap
      fun p => categoryFeedback p.1 p.2
    let highWarn : List String :=
      match maxByAmount by_category with
      | none => []
      | some (cat, amt) =>
          if total_spent * (2/5) < amt then
            [cat ++ " is your largest expense category at " ++
              (match List.lookup cat category_percentages with
               | some pc => toString pc
               | none => "0") ++
              " percent. This might be worth reviewing for potential savings."]
          else []
    let thresholds : List String :=
      if 50000 < total_spent then
        ["You are spending quite significantly. Consider tracking specific budgets for each category."]
      else if total_spent < 10000 then
        ["Excellent budgeting! Your spending is very controlled and mindful."]
      else []
    let points := perCat ++ highWarn ++ thresholds
    let points :=
      if points.isEmpty then
        ["Your spending patterns look healthy and balanced across categories! Keep it up!"]
      else points
    let base := "In the last " ++ toString period_days ++
      " days, you spent " ++ toString total_spent ++ " across " ++
      toString by_category.length ++ " categories. "
    if points.isEmpty then base ++ "Your spending patterns look balanced."
    else base ++ " " ++ String.intercalate " " points

/-- Embeds expense_summary_tool (tool.py lines 164-224).  The body is
inside try/except, so the result is always an envelope.  Empty result sets
short-circuit to a success envelope; otherwise metrics and feedback are
computed as in the source. -/
def expense_summary_tool (user_id : String) (period_days : ℤ)
    (dbo : FindOutcome) : Envelope :=
  match dbo with
  | FindOutcome.raises e =>
      ⟨"error", none, "Failed to generate expense summary: " ++ e⟩
  | FindOutcome.ok rows =>
      let _ := user_id
      if rows.isEmpty then
        ⟨"success", some (ToolData.note "No expenses found for this period."),
          "You have not recorded any expenses in the last {period_days} days. Great job saving!"⟩
      else
        let total : ℚ := (rows.map Expense.amount).sum
        let byCat := rows.foldl
          (fun acc e => bumpCategory acc e.category.toLower e.amount) []
        let percentages := byCat.map fun p => (p.1, p.2 / total * 100)
        let feedback :=
          generate_spending_feedback total byCat percentages period_days
        ⟨"success", some (ToolData.summary total rows.length feedback),
          feedback⟩

/-- Embeds add_goal_tool (tool.py lines 292-328): the Python function with
both parameters bound.  The body is inside try/except, so given bound
arguments the result is always an envelope; the goals collection is
threaded as state. -/
def add_goal_tool (user_id : String) (goal_text : String)
    (dbo : InsertOutcome) (goals : List Goal) : Envelope × List Goal :=
  match dbo with
  | InsertOutcome.raises e =>
      (⟨"error", none, "Failed to add goal: " ++ e⟩, goals)
  | InsertOutcome.ok ack gid =>
      let goals' := goals ++ [⟨user_id, goal_text, false⟩]
      if ack then
        (⟨"success", some (ToolData.goal gid goal_text),
          "Goal " ++ goal_text ++ " added successfully! You can do it!"⟩,
         goals')
      else
        (⟨"error", none,
          "Failed to add goal: Database write not acknowledged."⟩, goals')

/-- Embeds get_stock_price (tool.py lines 330-338).  The body has no
try/except: it calls requests.get and returns r.json() directly, so an
exception from the HTTP layer propagates out of the tool function.  The
successful value is the raw JSON payload, not a status/data/message
envelope. -/
def get_stock_price (symbol : String) (http : HttpOutcome) :
    Except String String :=
  match http with
  | HttpOutcome.ok body => Except.ok (symbol ++ ":" ++ body)
  | HttpOutcome.raises e => Except.error e

/-- Embeds search_with_serper (tool.py lines 367-384).  The body has no
try/except: it returns serper.run(query) directly, so an exception from the
search client propagates out of the tool function. -/
def search_with_serper (query : String) (http : HttpOutcome) :
    Except String String :=
  match http with
  | HttpOutcome.ok body => Except.ok body
  | HttpOutcome.raises e =>
      let _ := query
      Except.error e

/-! ## tool.py: declared schemas and schema-mediated invocation

The langchain tool decorator with args_schema validates the model-supplied
argument record against the pydantic schema and then calls the Python
function with exactly the parsed schema fields as keyword arguments. -/

/-- Embeds the field list of AddGoalInput (tool.py lines 44-46): the
declared schema contains only user_id. -/
def AddGoalInput_fields : List String := ["user_id"]

/-- Embeds the parameter list of the add_goal_tool Python function
(tool.py line 293): both user_id and goal_text are required. -/
def add_goal_required_params : List String := ["user_id", "goal_text"]

/-- Embeds pydantic validation of an argument record against AddGoalInput:
user_id must be present as a string; fields outside the schema are dropped
from the parsed record. -/
def parse_AddGoalInput (args : Args) : Except String Args :=
  match strField args "user_id" with
  | some u => Except.ok [("user_id", Value.str u)]
  | none => Except.error "ValidationError: user_id field required"

/-- Embeds the call func(**parsed) performed by the decorated tool: the
add_goal_tool function needs both user_id and goal_text bound; a missing
required parameter raises TypeError before the function body runs, so the
goals collection is returned unchanged in that case. -/
def call_add_goal_function (bound : Args) (dbo : InsertOutcome)
    (goals : List Goal) : Except String Envelope × List Goal :=
  match strField bound "user_id", strField bound "goal_text" with
  | some u, some g =>
      let r := add_goal_tool u g dbo goals
      (Except.ok r.1, r.2)
  | _, _ =>
      (Except.error
        "TypeError: add_goal_tool missing required argument goal_text",
       goals)

/-- Embeds a full schema-mediated invocation of the decorated add_goal
tool: validate against AddGoalInput, then call the function with the parsed
fields. -/
def invoke_add_goal (args : Args) (dbo : InsertOutcome)
    (goals : List Goal) : Except String Envelope × List Goal :=
  match parse_AddGoalInput args with
  | Except.error e => (Except.error e, goals)
  | Except.ok bound => call_add_goal_function bound dbo goals

/-- Embeds the property of an argument record being exactly valid against
the declared AddGoalInput schema: it binds precisely the declared field
user_id to a string. -/
def validAgainstAddGoalSchema (args : Args) : Prop :=
  ∃ u, args = [("user_id", Value.str u)]

/-! ## chatbot.py: messages and the model/tool interface

The conversation state is the ordered message list of ChatState
(chatbot.py lines 39-40), merged with the add_messages reducer: messages
arriving with fresh ids are appended, never merged in place. -/

/-- Embeds the roles of langchain messages as used by the graph. -/
inductive Role where
  | system
  | user
  | assistant
  | tool
deriving DecidableEq, Repr

/-- Embeds a ToolCallRequest: the tool call entry the model places on an
assistant message (tool name, argument record, call id). -/
structure ToolCallRequest where
  name : String
  args : Args
  call_id : String
deriving DecidableEq, Repr

instance : Inhabited ToolCallRequest := ⟨⟨"", [], ""⟩⟩

/-- Embeds a langchain message: role, text content, the tool calls carried
by an assistant message, and the call id a tool message responds to. -/
structure Message where
  role : Role
  content : String
  tool_calls : List ToolCallRequest
  tool_call_id : Option String
deriving DecidableEq, Repr

/-- Builds the system message injected by process_input_stream on every
call (chatbot.py lines 88-89). -/
def systemMsg : Message :=
  ⟨Role.system,
    "You are FinVoice, a helpful AI assistant. The current user ID is always available as thread_id in your configuration. Whenever you call any tool, always set user_id = thread_id (you do not need to ask the user).",
    [], none⟩

/-- Builds the human message wrapping the caller input (chatbot.py
line 91). -/
def userMsg (user_text : String) : Message :=
  ⟨Role.user, user_text, [], none⟩

/-- Builds the assistant message appended by chat_node from the model
response (chatbot.py lines 45-49). -/
def assistantMsg (content : String) (tool_calls : List ToolCallRequest) :
    Message :=
  ⟨Role.assistant, content, tool_calls, none⟩

/-- Builds a tool message from an invocation result:
tool role, the produced content, linked to the request call id. -/
def toolMsg (req : ToolCallRequest) (content : String) : Message :=
  ⟨Role.tool, content, [], some req.call_id⟩

/-! ## chatbot.py: ToolNode dispatch of a single request

ToolNode (chatbot.py line 51) receives the tool calls of the last
assistant message and, for each one, looks the tool up by name and invokes
it on the argument record of the call.  The session id sits in the run
configuration (thread_id) but the dispatch code never reads it: arguments
reach the tool exactly as the model produced them. -/

/-- Embeds one registered capability at the granularity ToolNode sees: a
name and an invocation function from an argument record to the content of
the resulting tool message. -/
structure Capability where
  name : String
  run : Args → String

/-- Embeds the registry lookup ToolNode performs: find the tool whose name
matches the request. -/
def toolNodeLookup (registry : List Capability) (n : String) :
    Option Capability :=
  registry.find? fun c => c.name == n

/-- Embeds the dispatch of one ToolCallRequest by ToolNode under session id
session_id: unknown names synthesize an error tool message; otherwise the
tool is invoked on req.args, the argument record of the model-produced
call, with no substitution from the session. -/
def tool_node_dispatch (registry : List Capability) (session_id : String)
    (req : ToolCallRequest) : Message :=
  let _ := session_id
  match toolNodeLookup registry req.name with
  | none =>
      toolMsg req ("Error: " ++ req.name ++ " is not a valid tool.")
  | some c => toolMsg req (c.run req.args)

/-- Embeds the argument record that an invocation performed by
tool_node_dispatch delivers to the tool function, when the tool exists:
ToolNode passes the model-produced record through unchanged. -/
def tool_node_delivered_args (registry : List Capability)
    (session_id : String) (req : ToolCallRequest) : Option Args :=
  let _ := session_id
  (toolNodeLookup registry req.name).map fun _ => req.args

/-- Modelled from the spec: the Session identity invariant dispatch, in
which the Orchestrator "enforces this substitution itself rather than
trusting the model" by overwriting the user-identifying argument with the
session id before invoking the capability.  This definition follows the
words of the spec and exists to be compared with tool_node_dispatch, the
definition taken from the source. -/
def spec_substituting_dispatch (registry : List Capability)
    (session_id : String) (req : ToolCallRequest) : Message :=
  let substituted : Args :=
    req.args.map fun p =>
      if p.1 == "user_id" then (p.1, Value.str session_id) else p
  match toolNodeLookup registry req.name with
  | none =>
      toolMsg req ("Error: " ++ req.name ++ " is not a valid tool.")
  | some c => toolMsg req (c.run substituted)

/-! ## chatbot.py: the graph loop

The compiled graph (chatbot.py lines 71-79) alternates chat_node and the
tools node: tools_condition routes to the tools node exactly when the
assistant message carries tool calls, and the tools node loops back to
chat_node.  agent.stream with stream_mode set to "messages" emits the
token chunks of each model invocation and, for tool supersteps, the
resulting tool messages; process_input_stream forwards every non-empty
content and turns any raised exception into one error fragment. -/

/-- Embeds the outcome of one model invocation (llm_with_tools.invoke at
chatbot.py line 48): either a response with persisted content, streamed
token chunks and a tool-call list, or an exception raised after streaming
some chunks. -/
inductive ModelOutcome where
  | success (content : String) (toks : List String)
      (tool_calls : List ToolCallRequest)
  | failure (toks : List String) (err : String)
deriving DecidableEq, Repr

/-- Embeds an oracle for the model: the outcome of invoking the model on a
message history. -/
abbrev ModelOracle := List Message → ModelOutcome

/-- Embeds an oracle for tool execution at the orchestration level: the
content of the tool message a request produces (ToolNode always produces a
tool message, converting tool exceptions to error content). -/
abbrev ToolOracle := ToolCallRequest → String

/-- Embeds the completion log of the possibly concurrent executions inside
one tools superstep: sched lists the request indices in completion order,
and each completed execution is recorded with its index. -/
def completionLog (exec : ToolOracle) (reqs : List ToolCallRequest)
    (sched : List Nat) : List (Nat × Message) :=
  sched.map fun i =>
    (i, toolMsg (reqs.getD i default) (exec (reqs.getD i default)))

/-- Embeds the assembly of the tool messages of one tools superstep in
request order: slot i of the output is the completed result for request i,
whatever position it completed at. -/
def toolNodeResults (exec : ToolOracle) (reqs : List ToolCallRequest)
    (sched : List Nat) : List Message :=
  (List.range reqs.length).filterMap fun i =>
    (completionLog exec reqs sched).lookup i

/-- Embeds a scheduling oracle: the completion order of each dispatched
batch of requests. -/
abbrev SchedOracle := List ToolCallRequest → List Nat

/-- Embeds the property of a scheduling oracle being a real completion
order: each batch completes as a permutation of its request indices. -/
def ValidSched (sched : SchedOracle) : Prop :=
  ∀ reqs : List ToolCallRequest,
    (sched reqs).Perm (List.range reqs.length)

/-- Embeds the in-order scheduling oracle (requests complete in request
order). -/
def inOrderSched : SchedOracle := fun reqs => List.range reqs.length

/-- Embeds the two failure modes that escape the graph run into the
except handler of process_input_stream: an exception from the model call,
or the GraphRecursionError raised when the superstep budget is exceeded. -/
inductive RunError where
  | modelErr (e : String)
  | recursionErr
deriving DecidableEq, Repr

/-- Renders a run error the way str(e) renders it at chatbot.py line 100. -/
def errString : RunError → String
  | RunError.modelErr e => e
  | RunError.recursionErr =>
      "Recursion limit of 25 reached without hitting a stop condition. You can increase the limit by setting the recursion_limit config key."

/-- Embeds the observable outcome of one agent.stream call: the contents
emitted in order (raw), the subsets emitted by model steps and by tool
supersteps (bookkeeping for provenance), the last committed message state,
the number of model invocations performed, and the escaping error if
any. -/
structure RunResult where
  raw : List String
  modelToks : List String
  toolOuts : List String
  messages : List Message
  rounds : Nat
  err : Option RunError
deriving DecidableEq, Repr

/-- Embeds the graph loop of the compiled agent under a superstep budget
(fuel): chat_node invokes the model and appends the assistant message;
tools_condition ends the turn when no tool calls are present; otherwise
the tools superstep appends one tool message per request, in request
order, and the loop re-enters chat_node.  Each completed superstep is
committed, a model exception aborts the turn without committing its
superstep, and an exhausted budget raises GraphRecursionError. -/
def runLoop (model : ModelOracle) (exec : ToolOracle) (sched : SchedOracle) :
    Nat → List Message → RunResult
  | 0, msgs => ⟨[], [], [], msgs, 0, some RunError.recursionErr⟩
  | fuel + 1, msgs =>
    match model msgs with
    | ModelOutcome.failure toks e =>
        ⟨toks, toks, [], msgs, 1, some (RunError.modelErr e)⟩
    | ModelOutcome.success content toks reqs =>
        let msgs1 := msgs ++ [assistantMsg content reqs]
        if reqs.isEmpty then ⟨toks, toks, [], msgs1, 1, none⟩
        else
          match fuel with
          | 0 => ⟨toks, toks, [], msgs1, 1, some RunError.recursionErr⟩
          | fuel' + 1 =>
            let results := toolNodeResults exec reqs (sched reqs)
            let outs := results.map Message.content
            let rest := runLoop model exec sched fuel' (msgs1 ++ results)
            ⟨toks ++ outs ++ rest.raw, toks ++ rest.modelToks,
              outs ++ rest.toolOuts, rest.messages, rest.rounds + 1,
              rest.err⟩

/-- Embeds the default recursion limit of the runtime: agent.stream is
called without overriding it (chatbot.py line 95), so 25 supersteps are
available per turn. -/
def recursionLimit : Nat := 25

/-- Embeds the state with which the turn enters the graph: the loaded
checkpoint state with the fresh system message and the new human message
appended by the add_messages reducer (chatbot.py lines 88-92; both input
messages carry fresh ids, so both are appended). -/
def initMessages (prior : List Message) (user_text : String) :
    List Message :=
  prior ++ [systemMsg, userMsg user_text]

/-- Embeds one agent.stream call on a session whose persisted state is
prior. -/
def agentStream (model : ModelOracle) (exec : ToolOracle)
    (sched : SchedOracle) (prior : List Message) (user_text : String) :
    RunResult :=
  runLoop model exec sched recursionLimit (initMessages prior user_text)

/-- Embeds what one call of process_input_stream leaves behind: the
fragments yielded to the caller and the persisted message state of the
session. -/
structure StreamOutcome where
  fragments : List String
  persisted : List Message
deriving DecidableEq, Repr

/-- Embeds process_input_stream (chatbot.py lines 87-100): every emitted
content that is non-empty is yielded; an exception escaping the stream is
yielded as a single trailing error fragment. -/
def process_input_stream (model : ModelOracle) (exec : ToolOracle)
    (sched : SchedOracle) (user_text : String) (session_id : String)
    (prior : List Message) : StreamOutcome :=
  let _ := session_id
  let r := agentStream model exec sched prior user_text
  ⟨r.raw.filter (fun s => s ≠ "") ++
      (match r.err with
       | some e => ["Error during streaming: " ++ errString e]
       | none => []),
    r.messages⟩

/-! ## chatbot.py: the checkpointer under concurrent turns

The checkpointer (chatbot.py lines 60-64) is a MongoDB-backed saver: a put
is an unconditional upsert keyed by a fresh, monotonically issued
checkpoint id, and a load returns the checkpoint with the greatest id for
the thread.  There is no expected-version parameter and no conflict
return: a put always succeeds.  A turn loads once on entry and then writes
a checkpoint at each stable point; for the two-checkpoint shape of a
zero-tool-call turn these are the post-input write and the post-response
write.  Two concurrent turns on one session interleave these atomic store
operations. -/

/-- Embeds one stored checkpoint: issue id and the full message snapshot
(message contents suffice at this granularity). -/
structure Ckpt where
  ck_id : Nat
  msgs : List String
deriving DecidableEq, Repr

/-- Embeds the store for one session plus the id issuer. -/
structure CkStore where
  saved : List Ckpt
  next_id : Nat
deriving DecidableEq, Repr

/-- Embeds the load of the latest checkpoint: the stored checkpoint with
the greatest id. -/
def latestCk : List Ckpt → Option Ckpt
  | [] => none
  | c :: t =>
      match latestCk t with
      | none => some c
      | some b => some (if c.ck_id < b.ck_id then b else c)

/-- Embeds a put: an unconditional insert under a fresh id.  The return
type records that the saver offers no conflict outcome. -/
def ckPut (s : CkStore) (msgs : List String) : CkStore :=
  ⟨s.saved ++ [⟨s.next_id, msgs⟩], s.next_id + 1⟩

/-- Embeds the inputs of one turn at this granularity: the user text and
the assistant reply it will append. -/
structure TurnSpec where
  user_text : String
  reply : String
deriving DecidableEq, Repr

/-- Embeds the control point of one in-flight turn: about to load, about
to write the post-input checkpoint, about to write the post-response
checkpoint, or finished.  The base snapshot read by the load is carried
along, as is, once finished, the base the turn had loaded (for asking
whether the turn serialized behind the other). -/
inductive TurnPhase where
  | toLoad
  | toPut1 (base : List String)
  | toPut2 (base : List String)
  | finished (loadedBase : List String)
deriving DecidableEq, Repr

/-- Embeds one atomic step of one turn against the store. -/
def stepTurn (t : TurnSpec) (s : CkStore) : TurnPhase → CkStore × TurnPhase
  | TurnPhase.toLoad =>
      let base := match latestCk s.saved with
        | none => []
        | some c => c.msgs
      (s, TurnPhase.toPut1 base)
  | TurnPhase.toPut1 base =>
      (ckPut s (base ++ [t.user_text]), TurnPhase.toPut2 base)
  | TurnPhase.toPut2 base =>
      (ckPut s (base ++ [t.user_text, t.reply]), TurnPhase.finished base)
  | TurnPhase.finished base => (s, TurnPhase.finished base)

/-- Embeds the joint state of two concurrent turns on the same session. -/
structure ConcState where
  store : CkStore
  phaseA : TurnPhase
  phaseB : TurnPhase
deriving DecidableEq, Repr

/-- Embeds one scheduler choice: true steps turn A, false steps turn B. -/
def stepConc (ta tb : TurnSpec) (c : ConcState) (who : Bool) : ConcState :=
  if who then
    let r := stepTurn ta c.store c.phaseA
    ⟨r.1, r.2, c.phaseB⟩
  else
    let r := stepTurn tb c.store c.phaseB
    ⟨r.1, c.phaseA, r.2⟩

/-- Embeds the execution of two concurrent turns on an initially empty
session under an interleaving schedule. -/
def execConc (ta tb : TurnSpec) (sched : List Bool) : ConcState :=
  sched.foldl (stepConc ta tb) ⟨⟨[], 0⟩, TurnPhase.toLoad, TurnPhase.toLoad⟩

/-- Reads the final persisted message sequence: the latest checkpoint. -/
def finalMsgs (c : ConcState) : List String :=
  match latestCk c.store.saved with
  | none => []
  | some ck => ck.msgs

/-- Decides whether a turn has finished. -/
def isFinished : TurnPhase → Bool
  | TurnPhase.finished _ => true
  | _ => false

/-- Decides whether a finished turn serialized behind the other turn:
its load already observed the other turns appended user message. -/
def serializedBehind (other : TurnSpec) : TurnPhase → Bool
  | TurnPhase.finished base => base.contains other.user_text
  | _ => false

/-! ## Concrete fixtures

Concrete states and oracles used to evaluate the definitions on explicit
inputs. -/

instance : Inhabited Message := ⟨⟨Role.tool, "", [], none⟩⟩

/-- A concrete expenses collection: user u2 owns one expense of 999. -/
def demoExpenses : List Expense := [⟨"u2", 999, "travel", none⟩]

/-- The query capability as ToolNode sees it, over the demoExpenses store:
validate the record, run the embedded Mongo filter for the user id in the
record, and return the envelope message. -/
def query_expenses_capability : Capability :=
  { name := "query_expenses_tool",
    run := fun args =>
      match strField args "user_id" with
      | none => "ValidationError: user_id field required"
      | some uid =>
          (query_expenses_tool uid none 30
            (FindOutcome.ok (mongoFindExpenses demoExpenses uid none))).message }

/-- A concrete registry holding the query capability. -/
def demoRegistry : List Capability := [query_expenses_capability]

/-- A model-produced tool call inside session u1 whose argument record
names user u2. -/
def reqC1 : ToolCallRequest :=
  ⟨"query_expenses_tool", [("user_id", Value.str "u2")], "call_0"⟩

/-- A concrete stock-price tool call. -/
def reqStock : ToolCallRequest :=
  ⟨"get_stock_price", [("symbol", Value.str "AAPL")], "call_1"⟩

/-- A second concrete tool call, for batches of two. -/
def reqSearch : ToolCallRequest :=
  ⟨"search_with_serper", [("query", Value.str "market news")], "call_2"⟩

/-- A concrete batch of two requests. -/
def twoReqs : List ToolCallRequest := [reqStock, reqSearch]

/-- A tool oracle whose every result content is the marker TOOLDATA. -/
def toolDataOracle : ToolOracle := fun _ => "TOOLDATA"

/-- A scheduling oracle that completes batches in reverse request order. -/
def revSched : SchedOracle := fun reqs => (List.range reqs.length).reverse

/-- A model oracle that answers with plain text and no tool calls. -/
def modelHi : ModelOracle :=
  fun _ => ModelOutcome.success "Hello there." ["Hello ", "there."] []

/-- A model oracle that requests the stock tool on the fresh two-message
input and answers with plain text afterwards. -/
def modelOneTool : ModelOracle :=
  fun msgs =>
    if msgs.length ≤ 2 then ModelOutcome.success "" [""] [reqStock]
    else ModelOutcome.success "done" ["done"] []

/-- A model oracle that requests a tool on every invocation. -/
def modelLoop : ModelOracle :=
  fun _ => ModelOutcome.success "" [""] [reqStock]

/-- A model oracle that requests the batch of two tools on every
invocation. -/
def modelTwoTools : ModelOracle :=
  fun _ => ModelOutcome.success "" [""] twoReqs

/-- A model oracle whose invocation raises after streaming one chunk. -/
def modelFail : ModelOracle :=
  fun _ => ModelOutcome.failure ["Par"] "APITimeoutError"

/-- Embeds the list of tools bound to the model and given to ToolNode
(chatbot.py line 33). -/
def registeredToolNames : List String :=
  ["add_expense_tool", "query_expenses_tool", "expense_summary_tool",
   "add_goal_tool", "generate_spending_feedback", "get_stock_price",
   "search_with_serper"]

/-! ## Helper lemmas -/

/-- Looking an index up in the completion log of a tools superstep returns
the result of that request, wherever it completed. -/
lemma completionLog_lookup (exec : ToolOracle) (reqs : List ToolCallRequest) :
    ∀ (sched : List Nat) (i : Nat), i ∈ sched →
      (completionLog exec reqs sched).lookup i =
        some (toolMsg (reqs.getD i default) (exec (reqs.getD i default))) := by
  intro sched
  induction sched with
  | nil => intro i hi; exact absurd hi (List.not_mem_nil i)
  | cons j t ih =>
    intro i hi
    by_cases hij : i = j
    · subst hij
      simp [completionLog, List.lookup]
    · have hb : (i == j) = false := by
        simpa using hij
      have hit : i ∈ t := by
        rcases List.mem_cons.mp hi with h | h
        · exact absurd h hij
        · exact h
      have hrec := ih i hit
      simpa [completionLog, List.lookup, hb] using hrec

/-- filterMap collapses to map when the function is total on the list. -/
lemma filterMap_eq_map_of {α β : Type} (l : List α) (f : α → Option β)
    (g : α → β) (h : ∀ a ∈ l, f a = some (g a)) : l.filterMap f = l.map g := by
  induction l with
  | nil => simp
  | cons a t ih =>
    have ha := h a (List.mem_cons_self a t)
    have ht : ∀ b ∈ t, f b = some (g b) := fun b hb => h b (List.mem_cons_of_mem a hb)
    simp [List.filterMap_cons, ha, ih ht]

/-- Mapping a function of the i-th element over the index range recovers
the map over the list. -/
lemma map_getD_range {α β : Type} [Inhabited α] (l : List α) (F : α → β) :
    (List.range l.length).map (fun i => F (l.getD i default)) = l.map F := by
  induction l with
  | nil => simp
  | cons a t ih =>
    rw [List.length_cons, List.range_succ_eq_map]
    simp only [List.map_cons, List.map_map, List.getD_cons_zero]
    refine congrArg (F a :: ·) ?_
    have : ((fun i => F ((a :: t).getD i default)) ∘ Nat.succ) =
        fun i => F (t.getD i default) := by
      funext i
      simp [List.getD_cons_succ]
    rw [this, ih]

/-- Under any completion order that is a permutation of the request
indices, the tools superstep assembles exactly one result per request, in
request order. -/
lemma toolNodeResults_of_perm (exec : ToolOracle)
    (reqs : List ToolCallRequest) (sched : List Nat)
    (h : sched.Perm (List.range reqs.length)) :
    toolNodeResults exec reqs sched =
      reqs.map (fun r => toolMsg r (exec r)) := by
  unfold toolNodeResults
  rw [filterMap_eq_map_of (List.range reqs.length) _
      (fun i => toolMsg (reqs.getD i default) (exec (reqs.getD i default)))
      (fun i hi => completionLog_lookup exec reqs sched i (h.mem_iff.mpr hi))]
  exact map_getD_range reqs (fun r => toolMsg r (exec r))

/-- Unfolds one failing model superstep: the turn aborts without
committing the superstep. -/
lemma runLoop_fail_eq (model : ModelOracle) (exec : ToolOracle)
    (sched : SchedOracle) (fuel : Nat) (msgs : List Message)
    (toks : List String) (e : String)
    (h : model msgs = ModelOutcome.failure toks e) :
    runLoop model exec sched (fuel + 1) msgs =
      ⟨toks, toks, [], msgs, 1, some (RunError.modelErr e)⟩ := by
  simp [runLoop, h]

/-- Unfolds one model superstep with no tool calls: the assistant message
is committed and the turn ends. -/
lemma runLoop_noTools_eq (model : ModelOracle) (exec : ToolOracle)
    (sched : SchedOracle) (fuel : Nat) (msgs : List Message)
    (c : String) (toks : List String)
    (h : model msgs = ModelOutcome.success c toks []) :
    runLoop model exec sched (fuel + 1) msgs =
      ⟨toks, toks, [], msgs ++ [assistantMsg c []], 1, none⟩ := by
  simp [runLoop, h]

/-- Unfolds one model superstep with tool calls followed by its tools
superstep: the assistant message and one tool message per request are
committed before the model is invoked again. -/
lemma runLoop_tools_eq (model : ModelOracle) (exec : ToolOracle)
    (sched : SchedOracle) (fuel : Nat) (msgs : List Message)
    (c : String) (toks : List String) (reqs : List ToolCallRequest)
    (h : model msgs = ModelOutcome.success c toks reqs) (hne : reqs ≠ []) :
    runLoop model exec sched (fuel + 2) msgs =
      ⟨toks ++ (toolNodeResults exec reqs (sched reqs)).map Message.content ++
          (runLoop model exec sched fuel
            (msgs ++ [assistantMsg c reqs] ++
              toolNodeResults exec reqs (sched reqs))).raw,
        toks ++ (runLoop model exec sched fuel
            (msgs ++ [assistantMsg c reqs] ++
              toolNodeResults exec reqs (sched reqs))).modelToks,
        (toolNodeResults exec reqs (sched reqs)).map Message.content ++
          (runLoop model exec sched fuel
            (msgs ++ [assistantMsg c reqs] ++
              toolNodeResults exec reqs (sched reqs))).toolOuts,
        (runLoop model exec sched fuel
          (msgs ++ [assistantMsg c reqs] ++
            toolNodeResults exec reqs (sched reqs))).messages,
        (runLoop model exec sched fuel
          (msgs ++ [assistantMsg c reqs] ++
            toolNodeResults exec reqs (sched reqs))).rounds + 1,
        (runLoop model exec sched fuel
          (msgs ++ [assistantMsg c reqs] ++
            toolNodeResults exec reqs (sched reqs))).err⟩ := by
  cases reqs with
  | nil => exact absurd rfl hne
  | cons a t => simp [runLoop, h]

/-- The committed state of a run extends the state the run entered with. -/
lemma runLoop_messages_ext (model : ModelOracle) (exec : ToolOracle)
    (sched : SchedOracle) :
    ∀ (fuel : Nat) (msgs : List Message),
      ∃ t, (runLoop model exec sched fuel msgs).messages = msgs ++ t := by
  intro fuel
  induction fuel using Nat.strong_induction_on with
  | _ fuel ih =>
    intro msgs
    rcases fuel with _ | fuel
    · exact ⟨[], by simp [runLoop]⟩
    cases hm : model msgs with
    | failure toks e =>
        exact ⟨[], by simp [runLoop_fail_eq model exec sched fuel msgs toks e hm]⟩
    | success c toks reqs =>
        rcases hreq : reqs with _ | ⟨a, t⟩
        · exact ⟨[assistantMsg c []],
            by simp [runLoop_noTools_eq model exec sched fuel msgs c toks (by rw [hm, hreq])]⟩
        · rcases fuel with _ | fuel
          · exact ⟨[assistantMsg c (a :: t)], by simp [runLoop, hm, hreq]⟩
          · obtain ⟨tail, htail⟩ := ih fuel (by omega)
              (msgs ++ [assistantMsg c (a :: t)] ++
                toolNodeResults exec (a :: t) (sched (a :: t)))
            refine ⟨[assistantMsg c (a :: t)] ++
              toolNodeResults exec (a :: t) (sched (a :: t)) ++ tail, ?_⟩
            rw [runLoop_tools_eq model exec sched fuel msgs c toks (a :: t)
              (by rw [hm, hreq]) (List.cons_ne_nil a t)]
            dsimp only
            rw [htail]
            simp

/-- Every run performs at most one model invocation per two units of the
superstep budget. -/
lemma runLoop_rounds_le (model : ModelOracle) (exec : ToolOracle)
    (sched : SchedOracle) :
    ∀ (fuel : Nat) (msgs : List Message),
      (runLoop model exec sched fuel msgs).rounds ≤ (fuel + 1) / 2 := by
  intro fuel
  induction fuel using Nat.strong_induction_on with
  | _ fuel ih =>
    intro msgs
    rcases fuel with _ | fuel
    · simp [runLoop]
    cases hm : model msgs with
    | failure toks e =>
        rw [runLoop_fail_eq model exec sched fuel msgs toks e hm]
        dsimp only
        omega
    | success c toks reqs =>
        rcases hreq : reqs with _ | ⟨a, t⟩
        · rw [runLoop_noTools_eq model exec sched fuel msgs c toks (by rw [hm, hreq])]
          dsimp only
          omega
        · rcases fuel with _ | fuel
          · simp [runLoop, hm, hreq]
          · have hrec := ih fuel (by omega)
              (msgs ++ [assistantMsg c (a :: t)] ++
                toolNodeResults exec (a :: t) (sched (a :: t)))
            rw [runLoop_tools_eq model exec sched fuel msgs c toks (a :: t)
              (by rw [hm, hreq]) (List.cons_ne_nil a t)]
            dsimp only
            omega

/-- Every emitted content of a run came from a model step or from a tools
superstep. -/
lemma runLoop_raw_provenance (model : ModelOracle) (exec : ToolOracle)
    (sched : SchedOracle) :
    ∀ (fuel : Nat) (msgs : List Message) (f : String),
      f ∈ (runLoop model exec sched fuel msgs).raw →
        f ∈ (runLoop model exec sched fuel msgs).modelToks ∨
          f ∈ (runLoop model exec sched fuel msgs).toolOuts := by
  intro fuel
  induction fuel using Nat.strong_induction_on with
  | _ fuel ih =>
    intro msgs f hf
    rcases fuel with _ | fuel
    · simp [runLoop] at hf
    cases hm : model msgs with
    | failure toks e =>
        rw [runLoop_fail_eq model exec sched fuel msgs toks e hm] at hf ⊢
        exact Or.inl hf
    | success c toks reqs =>
        rcases hreq : reqs with _ | ⟨a, t⟩
        · rw [runLoop_noTools_eq model exec sched fuel msgs c toks
            (by rw [hm, hreq])] at hf ⊢
          exact Or.inl hf
        · rcases fuel with _ | fuel
          · simp only [runLoop, hm, hreq] at hf ⊢
            simp at hf
            simp [hf]
          · rw [runLoop_tools_eq model exec sched fuel msgs c toks (a :: t)
              (by rw [hm, hreq]) (List.cons_ne_nil a t)] at hf ⊢
            simp only [List.mem_append] at hf ⊢
            rcases hf with (hf | hf) | hf
            · exact Or.inl (Or.inl hf)
            · exact Or.inr (Or.inl hf)
            · rcases ih fuel (by omega) _ f hf with h | h
              · exact Or.inl (Or.inr h)
              · exact Or.inr (Or.inr h)

/-- Every tools-superstep content of a run was emitted. -/
lemma runLoop_toolOuts_emitted (model : ModelOracle) (exec : ToolOracle)
    (sched : SchedOracle) :
    ∀ (fuel : Nat) (msgs : List Message) (f : String),
      f ∈ (runLoop model exec sched fuel msgs).toolOuts →
        f ∈ (runLoop model exec sched fuel msgs).raw := by
  intro fuel
  induction fuel using Nat.strong_induction_on with
  | _ fuel ih =>
    intro msgs f hf
    rcases fuel with _ | fuel
    · simp [runLoop] at hf
    cases hm : model msgs with
    | failure toks e =>
        rw [runLoop_fail_eq model exec sched fuel msgs toks e hm] at hf
        simp at hf
    | success c toks reqs =>
        rcases hreq : reqs with _ | ⟨a, t⟩
        · rw [runLoop_noTools_eq model exec sched fuel msgs c toks
            (by rw [hm, hreq])] at hf
          simp at hf
        · rcases fuel with _ | fuel
          · simp only [runLoop, hm, hreq] at hf
            simp at hf
          · rw [runLoop_tools_eq model exec sched fuel msgs c toks (a :: t)
              (by rw [hm, hreq]) (List.cons_ne_nil a t)] at hf ⊢
            simp only [List.mem_append] at hf ⊢
            rcases hf with hf | hf
            · exact Or.inl (Or.inr hf)
            · exact Or.inr (ih fuel (by omega) _ f hf)

/-! ## Claim theorems -/

/-- C9: for every call to add_expense_tool with amount at most zero, the
envelope has status error with data none and the expenses collection is
unchanged; and the collection changes only when the amount is positive. -/
theorem c9_add_expense_nonpositive_guard :
    ∀ (uid : String) (amount : ℚ) (category : String)
      (description : Option String) (dbo : InsertOutcome)
      (expenses : List Expense),
      (amount ≤ 0 →
        (add_expense_tool uid amount category description dbo expenses).1.status = "error"
        ∧ (add_expense_tool uid amount category description dbo expenses).1.data = none
        ∧ (add_expense_tool uid amount category description dbo expenses).2 = expenses)
      ∧ ((add_expense_tool uid amount category description dbo expenses).2 ≠ expenses
          → 0 < amount) := by
  intro uid amount category description dbo expenses
  constructor
  · intro h
    simp [add_expense_tool, h]
  · intro h
    by_contra hpos
    push_neg at hpos
    exact h (by simp [add_expense_tool, hpos])

/-- Witness for C9 at a concrete negative amount. -/
theorem c9_witness :
    ((-5 : ℚ) ≤ 0)
    ∧ ((add_expense_tool "u1" (-5) "food" none (InsertOutcome.ok true "id1") []).1.status = "error"
      ∧ (add_expense_tool "u1" (-5) "food" none (InsertOutcome.ok true "id1") []).1.data = none
      ∧ (add_expense_tool "u1" (-5) "food" none (InsertOutcome.ok true "id1") []).2 = []) :=
  ⟨by norm_num,
    (c9_add_expense_nonpositive_guard "u1" (-5) "food" none
      (InsertOutcome.ok true "id1") []).1 (by norm_num)⟩

/-- C10: the declared AddGoalInput schema has only user_id while the
add_goal_tool function also requires goal_text, so a record exactly valid
against the schema never binds goal_text: the invocation raises TypeError
before the body, never reaches the success branch, and never inserts a
goal. -/
theorem c10_add_goal_schema_mismatch :
    ∀ (args : Args) (dbo : InsertOutcome) (goals : List Goal),
      validAgainstAddGoalSchema args →
      ("goal_text" ∈ add_goal_required_params ∧ "goal_text" ∉ AddGoalInput_fields)
      ∧ (invoke_add_goal args dbo goals).1 =
          Except.error "TypeError: add_goal_tool missing required argument goal_text"
      ∧ (invoke_add_goal args dbo goals).2 = goals := by
  intro args dbo goals h
  obtain ⟨u, rfl⟩ := h
  refine ⟨⟨by simp [add_goal_required_params], by simp [AddGoalInput_fields]⟩, ?_, ?_⟩
  · simp [invoke_add_goal, parse_AddGoalInput, strField, call_add_goal_function,
      List.lookup]
  · simp [invoke_add_goal, parse_AddGoalInput, strField, call_add_goal_function,
      List.lookup]

/-- Witness for C10 at a concrete schema-valid record. -/
theorem c10_witness :
    validAgainstAddGoalSchema [("user_id", Value.str "alice")]
    ∧ ((invoke_add_goal [("user_id", Value.str "alice")]
          (InsertOutcome.ok true "g1") []).1 =
        Except.error "TypeError: add_goal_tool missing required argument goal_text"
      ∧ (invoke_add_goal [("user_id", Value.str "alice")]
          (InsertOutcome.ok true "g1") []).2 = ([] : List Goal)) :=
  ⟨⟨"alice", rfl⟩,
    (c10_add_goal_schema_mismatch [("user_id", Value.str "alice")]
      (InsertOutcome.ok true "g1") [] ⟨"alice", rfl⟩).2⟩

/-- C4 counterexample: get_stock_price is a registered tool, yet a failure
of its HTTP call propagates out of the tool function as an exception
instead of being captured into a status/data/message envelope. -/
theorem c4_counterexample_stock_price_propagates :
    ("get_stock_price" ∈ registeredToolNames)
    ∧ get_stock_price "AAPL" (HttpOutcome.raises "ConnectionError: request failed") =
        Except.error "ConnectionError: request failed" := by
  exact ⟨by simp [registeredToolNames], rfl⟩

/-- C4 amended: the four database tools wrap their bodies in try/except
and capture every downstream failure into an error-status envelope, while
get_stock_price and search_with_serper have no handler and let the
exception propagate out of the tool function. -/
theorem c4_amended_error_capture_per_tool :
    ∀ (uid category goal sym q e : String) (amount : ℚ)
      (description : Option String) (catf : Option String) (pd : ℤ)
      (expenses : List Expense) (goals : List Goal),
      (add_expense_tool uid amount category description
          (InsertOutcome.raises e) expenses).1.status = "error"
      ∧ (add_expense_tool uid amount category description
          (InsertOutcome.raises e) expenses).1.data = none
      ∧ (query_expenses_tool uid catf pd (FindOutcome.raises e)).status = "error"
      ∧ (expense_summary_tool uid pd (FindOutcome.raises e)).status = "error"
      ∧ (add_goal_tool uid goal (InsertOutcome.raises e) goals).1.status = "error"
      ∧ get_stock_price sym (HttpOutcome.raises e) = Except.error e
      ∧ search_with_serper q (HttpOutcome.raises e) = Except.error e := by
  intro uid category goal sym q e amount description catf pd expenses goals
  refine ⟨?_, ?_, rfl, rfl, rfl, rfl, rfl⟩ <;>
    by_cases h : amount ≤ 0 <;> simp [add_expense_tool, h]

/-- C1 counterexample: inside session u1 the dispatch of a model-produced
call naming user u2 delivers exactly the model record, whose
user-identifying argument differs from the session id, and the invocation
observably differs from the spec-substituting dispatch. -/
theorem c1_counterexample_no_substitution :
    tool_node_delivered_args demoRegistry "u1" reqC1 =
      some [("user_id", Value.str "u2")]
    ∧ (strField [("user_id", Value.str "u2")] "user_id" == some "u1") = false
    ∧ ((tool_node_dispatch demoRegistry "u1" reqC1).content ==
        (spec_substituting_dispatch demoRegistry "u1" reqC1).content) = false := by
  refine ⟨rfl, by decide, by decide⟩

/-- C1 amended: the orchestrator performs no substitution of the session
id into tool arguments: dispatch is independent of the session id, the
arguments delivered are exactly those of the model-produced request, and a
found capability is invoked on req.args verbatim; equality of the
user-identifying argument with the session id therefore holds only when
the model itself set it, as the system prompt requests. -/
theorem c1_amended_dispatch_ignores_session :
    ∀ (registry : List Capability) (sid sid₂ : String) (req : ToolCallRequest),
      tool_node_dispatch registry sid req = tool_node_dispatch registry sid₂ req
      ∧ tool_node_delivered_args registry sid req =
          (toolNodeLookup registry req.name).map (fun _ => req.args)
      ∧ (∀ c, toolNodeLookup registry req.name = some c →
          tool_node_dispatch registry sid req = toolMsg req (c.run req.args)) := by
  intro registry sid sid₂ req
  refine ⟨?_, rfl, ?_⟩
  · cases toolNodeLookup registry req.name <;> rfl
  · intro c hc
    simp [tool_node_dispatch, hc]

/-- Witness for C1 amended at the demo registry and request. -/
theorem c1_amended_witness :
    toolNodeLookup demoRegistry reqC1.name = some query_expenses_capability
    ∧ tool_node_dispatch demoRegistry "u1" reqC1 =
        toolMsg reqC1 (query_expenses_capability.run reqC1.args) :=
  ⟨rfl,
    (c1_amended_dispatch_ignores_session demoRegistry "u1" "u9" reqC1).2.2
      query_expenses_capability rfl⟩

/-- C2 counterexample: a zero-tool-call turn on an empty session persists
three messages, not the pre-turn count plus two. -/
theorem c2_counterexample_three_messages :
    (process_input_stream modelHi toolDataOracle inOrderSched "hello" "s1"
        []).persisted.length = 3
    ∧ (((process_input_stream modelHi toolDataOracle inOrderSched "hello" "s1"
          []).persisted.length == ([] : List Message).length + 2) = false) := by
  exact ⟨by decide, by decide⟩

/-- C2 amended: for every turn with zero tool calls the persisted message
count equals the pre-turn count plus three, because process_input_stream
injects a fresh system message on every call in addition to the user and
assistant messages. -/
theorem c2_amended_plus_three :
    ∀ (model : ModelOracle) (exec : ToolOracle) (sched : SchedOracle)
      (prior : List Message) (ut sid c : String) (toks : List String),
      model (initMessages prior ut) = ModelOutcome.success c toks [] →
      (process_input_stream model exec sched ut sid prior).persisted.length =
        prior.length + 3 := by
  intro model exec sched prior ut sid c toks h
  have hr := runLoop_noTools_eq model exec sched 24 (initMessages prior ut) c toks h
  have hmsg : (agentStream model exec sched prior ut).messages =
      initMessages prior ut ++ [assistantMsg c []] := by
    unfold agentStream
    rw [show recursionLimit = 24 + 1 from rfl, hr]
  have hper : (process_input_stream model exec sched ut sid prior).persisted =
      initMessages prior ut ++ [assistantMsg c []] := by
    simp [process_input_stream, hmsg]
  rw [hper]
  simp [initMessages]

/-- Witness for C2 amended at a concrete zero-tool-call turn. -/
theorem c2_amended_witness :
    modelHi (initMessages [] "hello") =
      ModelOutcome.success "Hello there." ["Hello ", "there."] []
    ∧ (process_input_stream modelHi toolDataOracle inOrderSched "hello" "s1"
        []).persisted.length = ([] : List Message).length + 3 :=
  ⟨rfl,
    c2_amended_plus_three modelHi toolDataOracle inOrderSched [] "hello" "s1"
      "Hello there." ["Hello ", "there."] rfl⟩

/-- C7: when the model invocation raises, the superstep is not committed
(the already streamed chunks are delivered, no assistant message is
persisted, the state stays at the last committed checkpoint) and the
caller receives the streamed prefix followed by exactly one error
fragment. -/
theorem c7_model_failure_single_error_fragment :
    ∀ (model : ModelOracle) (exec : ToolOracle) (sched : SchedOracle)
      (fuel : Nat) (msgs : List Message) (toks : List String) (e : String),
      model msgs = ModelOutcome.failure toks e →
      runLoop model exec sched (fuel + 1) msgs =
        ⟨toks, toks, [], msgs, 1, some (RunError.modelErr e)⟩
      ∧ (∀ (ut sid : String) (prior : List Message),
          model (initMessages prior ut) = ModelOutcome.failure toks e →
          process_input_stream model exec sched ut sid prior =
            ⟨toks.filter (fun s => s ≠ "") ++
                ["Error during streaming: " ++ e],
              initMessages prior ut⟩) := by
  intro model exec sched fuel msgs toks e h
  refine ⟨runLoop_fail_eq model exec sched fuel msgs toks e h, ?_⟩
  intro ut sid prior h₂
  have h25 : recursionLimit = 24 + 1 := rfl
  simp [process_input_stream, agentStream, h25,
    runLoop_fail_eq model exec sched 24 (initMessages prior ut) toks e h₂,
    errString]

/-- Witness for C7 at a concrete failing model call. -/
theorem c7_witness :
    modelFail (initMessages [] "hi") =
      ModelOutcome.failure ["Par"] "APITimeoutError"
    ∧ process_input_stream modelFail toolDataOracle inOrderSched "hi" "s1" [] =
        ⟨["Par", "Error during streaming: APITimeoutError"],
          initMessages [] "hi"⟩ :=
  ⟨rfl, by
    have h := (c7_model_failure_single_error_fragment modelFail toolDataOracle
      inOrderSched 0 (initMessages [] "hi") ["Par"] "APITimeoutError" rfl).2
      "hi" "s1" [] rfl
    simpa using h⟩

/-- C5: every turn is bounded by the runtime superstep budget: at most 13
model invocations happen, and when the budget is exceeded the recursion
error is surfaced to the caller as a single trailing error fragment while
the persisted state is the committed extension of the turn input. -/
theorem c5_bounded_loop_guard :
    ∀ (model : ModelOracle) (exec : ToolOracle) (sched : SchedOracle)
      (prior : List Message) (ut sid : String),
      (agentStream model exec sched prior ut).rounds ≤ 13
      ∧ ((agentStream model exec sched prior ut).err =
            some RunError.recursionErr →
          (process_input_stream model exec sched ut sid prior).fragments =
            (agentStream model exec sched prior ut).raw.filter
                (fun s => s ≠ "") ++
              ["Error during streaming: " ++ errString RunError.recursionErr]
          ∧ ∃ t, (process_input_stream model exec sched ut sid prior).persisted =
              initMessages prior ut ++ t) := by
  intro model exec sched prior ut sid
  constructor
  · have h := runLoop_rounds_le model exec sched recursionLimit
      (initMessages prior ut)
    have h13 : (recursionLimit + 1) / 2 = 13 := rfl
    simpa [agentStream, h13] using h
  · intro herr
    constructor
    · simp [process_input_stream, herr]
    · obtain ⟨t, ht⟩ := runLoop_messages_ext model exec sched recursionLimit
        (initMessages prior ut)
      exact ⟨t, by simpa [process_input_stream, agentStream] using ht⟩

/-- Witness for C5 at a model that requests tools on every invocation. -/
theorem c5_witness :
    (agentStream modelLoop toolDataOracle inOrderSched [] "hi").err =
      some RunError.recursionErr
    ∧ ((process_input_stream modelLoop toolDataOracle inOrderSched "hi" "s1"
          []).fragments =
        (agentStream modelLoop toolDataOracle inOrderSched [] "hi").raw.filter
            (fun s => s ≠ "") ++
          ["Error during streaming: " ++ errString RunError.recursionErr]
      ∧ ∃ t, (process_input_stream modelLoop toolDataOracle inOrderSched "hi"
            "s1" []).persisted = initMessages [] "hi" ++ t) :=
  ⟨by decide,
    (c5_bounded_loop_guard modelLoop toolDataOracle inOrderSched [] "hi"
      "s1").2 (by decide)⟩

/-- C3 counterexample: a turn whose tool produces the marker TOOLDATA
delivers that marker to the caller as a fragment although no model step
emitted it: the tool-dispatch phase is caller-visible. -/
theorem c3_counterexample_tool_output_streamed :
    ((process_input_stream modelOneTool toolDataOracle inOrderSched "news"
        "s1" []).fragments.contains "TOOLDATA") = true
    ∧ ((agentStream modelOneTool toolDataOracle inOrderSched []
        "news").modelToks.contains "TOOLDATA") = false
    ∧ (agentStream modelOneTool toolDataOracle inOrderSched []
        "news").toolOuts = ["TOOLDATA"] := by
  refine ⟨by decide, by decide, by decide⟩

/-- C3 amended: every fragment delivered to the caller is a model token, a
tool-result content, or the single error fragment; and every non-empty
tool-result content of the turn is delivered to the caller (the stream
emits tool messages and the only filter is non-emptiness). -/
theorem c3_amended_fragment_provenance :
    ∀ (model : ModelOracle) (exec : ToolOracle) (sched : SchedOracle)
      (ut sid : String) (prior : List Message) (f : String),
      (f ∈ (process_input_stream model exec sched ut sid prior).fragments →
        f ∈ (agentStream model exec sched prior ut).modelToks
        ∨ f ∈ (agentStream model exec sched prior ut).toolOuts
        ∨ ∃ e, (agentStream model exec sched prior ut).err = some e ∧
            f = "Error during streaming: " ++ errString e)
      ∧ (f ∈ (agentStream model exec sched prior ut).toolOuts → f ≠ "" →
          f ∈ (process_input_stream model exec sched ut sid prior).fragments) := by
  intro model exec sched ut sid prior f
  rcases herr : (agentStream model exec sched prior ut).err with _ | e
  · have hfrag : (process_input_stream model exec sched ut sid prior).fragments =
        (agentStream model exec sched prior ut).raw.filter (fun s => s ≠ "") := by
      simp [process_input_stream, herr]
    constructor
    · intro hf
      rw [hfrag] at hf
      have hraw : f ∈ (agentStream model exec sched prior ut).raw :=
        List.mem_of_mem_filter hf
      rcases runLoop_raw_provenance model exec sched recursionLimit
          (initMessages prior ut) f hraw with h | h
      · exact Or.inl h
      · exact Or.inr (Or.inl h)
    · intro hout hne
      rw [hfrag]
      have hraw := runLoop_toolOuts_emitted model exec sched recursionLimit
        (initMessages prior ut) f hout
      exact List.mem_filter.mpr ⟨hraw, by simpa using hne⟩
  · have hfrag : (process_input_stream model exec sched ut sid prior).fragments =
        (agentStream model exec sched prior ut).raw.filter (fun s => s ≠ "") ++
          ["Error during streaming: " ++ errString e] := by
      simp [process_input_stream, herr]
    constructor
    · intro hf
      rw [hfrag] at hf
      rcases List.mem_append.mp hf with hf | hf
      · have hraw : f ∈ (agentStream model exec sched prior ut).raw :=
          List.mem_of_mem_filter hf
        rcases runLoop_raw_provenance model exec sched recursionLimit
            (initMessages prior ut) f hraw with h | h
        · exact Or.inl h
        · exact Or.inr (Or.inl h)
      · exact Or.inr (Or.inr ⟨e, rfl, by simpa using hf⟩)
    · intro hout hne
      rw [hfrag]
      have hraw := runLoop_toolOuts_emitted model exec sched recursionLimit
        (initMessages prior ut) f hout
      exact List.mem_append_left _ (List.mem_filter.mpr ⟨hraw, by simpa using hne⟩)

/-- Witness for C3 amended: the concrete tool content reaches the caller
through the theorem. -/
theorem c3_amended_witness :
    ("TOOLDATA" ∈ (agentStream modelOneTool toolDataOracle inOrderSched []
        "news").toolOuts ∧ "TOOLDATA" ≠ "")
    ∧ "TOOLDATA" ∈ (process_input_stream modelOneTool toolDataOracle
        inOrderSched "news" "s1" []).fragments :=
  ⟨⟨by decide, by decide⟩,
    (c3_amended_fragment_provenance modelOneTool toolDataOracle inOrderSched
      "news" "s1" [] "TOOLDATA").2 (by decide) (by decide)⟩

/-- C6: a tools superstep with n requests produces exactly n tool-role
results, one per request, assembled in request order under every
completion order, and appends them before the next model invocation. -/
theorem c6_tool_results_in_request_order :
    ∀ (exec : ToolOracle) (sched sched₂ : SchedOracle),
      ValidSched sched → ValidSched sched₂ →
      ∀ (reqs : List ToolCallRequest),
        toolNodeResults exec reqs (sched reqs) =
          reqs.map (fun r => toolMsg r (exec r))
        ∧ (toolNodeResults exec reqs (sched reqs)).length = reqs.length
        ∧ toolNodeResults exec reqs (sched reqs) =
            toolNodeResults exec reqs (sched₂ reqs)
        ∧ (∀ i, i < reqs.length →
            ((toolNodeResults exec reqs (sched reqs)).getD i default).role =
              Role.tool
            ∧ ((toolNodeResults exec reqs (sched reqs)).getD i
                default).tool_call_id = some ((reqs.getD i default).call_id))
        ∧ (∀ (model : ModelOracle) (msgs : List Message) (fuel : Nat)
            (c : String) (toks : List String),
            model msgs = ModelOutcome.success c toks reqs → reqs ≠ [] →
            (runLoop model exec sched (fuel + 2) msgs).messages =
              (runLoop model exec sched fuel
                (msgs ++ [assistantMsg c reqs] ++
                  reqs.map (fun r => toolMsg r (exec r)))).messages) := by
  intro exec sched sched₂ h h₂ reqs
  have hmain := toolNodeResults_of_perm exec reqs (sched reqs) (h reqs)
  have hmain₂ := toolNodeResults_of_perm exec reqs (sched₂ reqs) (h₂ reqs)
  refine ⟨hmain, ?_, ?_, ?_, ?_⟩
  · rw [hmain, List.length_map]
  · rw [hmain, hmain₂]
  · intro i hi
    rw [hmain]
    have hi₂ : i < (reqs.map (fun r => toolMsg r (exec r))).length := by
      simpa using hi
    rw [List.getD_eq_getElem _ _ hi₂, List.getElem_map,
      List.getD_eq_getElem _ _ hi]
    exact ⟨rfl, rfl⟩
  · intro model msgs fuel c toks hm hne
    rw [runLoop_tools_eq model exec sched fuel msgs c toks reqs hm hne]
    dsimp only
    rw [hmain]

/-- Witness for C6 at a concrete two-request batch with in-order and
reversed completion orders. -/
theorem c6_witness :
    ValidSched inOrderSched ∧ ValidSched revSched
    ∧ toolNodeResults toolDataOracle twoReqs (revSched twoReqs) =
        twoReqs.map (fun r => toolMsg r (toolDataOracle r))
    ∧ toolNodeResults toolDataOracle twoReqs (inOrderSched twoReqs) =
        toolNodeResults toolDataOracle twoReqs (revSched twoReqs)
    ∧ (runLoop modelTwoTools toolDataOracle inOrderSched (0 + 2) []).messages =
        (runLoop modelTwoTools toolDataOracle inOrderSched 0
          ([] ++ [assistantMsg "" twoReqs] ++
            twoReqs.map (fun r => toolMsg r (toolDataOracle r)))).messages := by
  have h₁ : ValidSched inOrderSched := fun reqs => List.Perm.refl _
  have h₂ : ValidSched revSched := fun reqs => List.reverse_perm _
  exact ⟨h₁, h₂,
    (c6_tool_results_in_request_order toolDataOracle revSched inOrderSched
      h₂ h₁ twoReqs).1,
    (c6_tool_results_in_request_order toolDataOracle inOrderSched revSched
      h₁ h₂ twoReqs).2.2.1,
    (c6_tool_results_in_request_order toolDataOracle inOrderSched revSched
      h₁ h₂ twoReqs).2.2.2.2 modelTwoTools [] 0 "" [""] rfl (by decide)⟩

/-- C8 counterexample: a schedule in which both turns load before either
writes lets both turns finish with every put accepted, neither turn
retries or serializes behind the other, and the final persisted sequence
has silently lost the first turns messages. -/
theorem c8_counterexample_silent_overwrite :
    isFinished (execConc ⟨"uA", "rA"⟩ ⟨"uB", "rB"⟩
        [true, false, true, true, false, false]).phaseA = true
    ∧ isFinished (execConc ⟨"uA", "rA"⟩ ⟨"uB", "rB"⟩
        [true, false, true, true, false, false]).phaseB = true
    ∧ finalMsgs (execConc ⟨"uA", "rA"⟩ ⟨"uB", "rB"⟩
        [true, false, true, true, false, false]) = ["uB", "rB"]
    ∧ ((finalMsgs (execConc ⟨"uA", "rA"⟩ ⟨"uB", "rB"⟩
        [true, false, true, true, false, false])).contains "uA") = false
    ∧ serializedBehind ⟨"uB", "rB"⟩ (execConc ⟨"uA", "rA"⟩ ⟨"uB", "rB"⟩
        [true, false, true, true, false, false]).phaseA = false
    ∧ serializedBehind ⟨"uA", "rA"⟩ (execConc ⟨"uA", "rA"⟩ ⟨"uB", "rB"⟩
        [true, false, true, true, false, false]).phaseB = false := by
  decide

/-- C8 amended: the checkpointer accepts every save unconditionally under
a fresh id, so a truly concurrent interleaving ends with the last writers
branch alone (the other turns messages are lost without any conflict
signal), while a fully serial interleaving preserves both turns. -/
theorem c8_amended_last_writer_wins :
    ∀ (uA rA uB rB : String),
      finalMsgs (execConc ⟨uA, rA⟩ ⟨uB, rB⟩
          [true, false, true, true, false, false]) = [uB, rB]
      ∧ finalMsgs (execConc ⟨uA, rA⟩ ⟨uB, rB⟩
          [true, true, true, false, false, false]) = [uA, rA, uB, rB]
      ∧ (∀ (s : CkStore) (m : List String),
          (ckPut s m).saved = s.saved ++ [⟨s.next_id, m⟩]) := by
  intro uA rA uB rB
  exact ⟨rfl, rfl, fun s m => rfl⟩

end FinAgent
